import Mathlib

/-!
Shallow embedding of `src/server/main.py`, the weight-tracker backend.

Modelling conventions:
* Instants (`datetime.datetime` values) are abstract ticks (`Nat`); every call
  to `datetime.datetime.utcnow()` becomes an explicit `now` argument.
  Durations keep the source's constants, converted to seconds.
* The SQLAlchemy store is a `Db` record of lists of rows;
  `query(...).filter(...).first()` is `List.find?`, and a row mutation followed
  by `db.commit()` is an explicit new `Db` value.
* The claims under study never exercise float rounding, so `Float` weights are
  modelled as `ℚ`.
* A raised `HTTPException(status_code=s, detail=d)` is `ApiError.http s d`; an
  exception no handler catches (it surfaces as a 500 through the framework) is
  `ApiError.unhandled`.
* External collaborators are modelled at their interface, as the spec directs:
  an uploaded image is represented by the text pytesseract recognises in it,
  and email delivery (`send_magic_link_email`) is a pure side effect outside
  the store, so it does not appear in the state.
* Row ids and token strings that the database or `uuid.uuid4()` would generate
  are passed in as explicit arguments (`next_id`, `token`).
-/

namespace WeightTracker

/-! ### Configuration constants (`main.py`, lines 25-30) -/

def ACCESS_TOKEN_EXPIRE_DAYS : Nat := 7

def MAGIC_LINK_EXPIRE_MINUTES : Nat := 15

/-! ### ORM models (`main.py`, lines 55-84) -/

/-- Row of the `users` table. -/
structure User where
  id : Nat
  email : String
  created_at : Nat
deriving Repr, DecidableEq

/-- Row of the `magic_link_tokens` table.  The `token` column carries a
`unique=True` constraint in the schema. -/
structure MagicLinkToken where
  id : Nat
  token : String
  user_id : Nat
  expires_at : Nat
  used : Bool
deriving Repr, DecidableEq

/-- Row of the `weights` table. -/
structure WeightEntry where
  id : Nat
  weight : ℚ
  timestamp : Nat
  method : String
  user_id : Nat
deriving Repr, DecidableEq

/-- The durable store. -/
structure Db where
  users : List User
  magic_link_tokens : List MagicLinkToken
  weights : List WeightEntry
deriving Repr, DecidableEq

/-- How a request handler fails: a deliberate `HTTPException`, or a Python
exception nothing catches (the framework turns it into a 500 response). -/
inductive ApiError where
  | http (status : Nat) (detail : String)
  | unhandled (exc : String)
deriving Repr, DecidableEq

/-! ### Decimal strings: models of Python `str` on ints and `int` on strings -/

/-- The character for one decimal digit (only ever applied below 10). -/
def digitChar (d : Nat) : Char :=
  match d with
  | 0 => '0' | 1 => '1' | 2 => '2' | 3 => '3' | 4 => '4'
  | 5 => '5' | 6 => '6' | 7 => '7' | 8 => '8' | _ => '9'

/-- Decimal digits of `n`, most significant first; fuel keeps the recursion
structural.  `digitsGo (n+1) n` is total for every `n`. -/
def digitsGo : Nat → Nat → List Char
  | 0, _ => []
  | fuel + 1, n =>
    if n < 10 then [digitChar n]
    else digitsGo fuel (n / 10) ++ [digitChar (n % 10)]

def natDigits (n : Nat) : List Char := digitsGo (n + 1) n

/-- Model of Python `str(n)` for a nonnegative int. -/
def pyStr (n : Nat) : String := String.mk (natDigits n)

/-- Numeric value of a digit string. -/
def strToNat (cs : List Char) : Nat :=
  cs.foldl (fun a c => 10 * a + (c.toNat - 48)) 0

/-- Model of Python `int(s)`, restricted to the plain decimal strings the
server itself produces for the JWT `sub` claim; on any other string `int`
raises `ValueError`, modelled as `none`. -/
def pyInt (s : String) : Option Nat :=
  if s.data ≠ [] ∧ s.data.all Char.isDigit then some (strToNat s.data) else none

theorem digitChar_isDigit (d : Nat) : (digitChar d).isDigit = true := by
  unfold digitChar
  split <;> decide

theorem digitChar_toNat (d : Nat) (h : d < 10) : (digitChar d).toNat = 48 + d := by
  interval_cases d <;> rfl

theorem digitsGo_spec :
    ∀ fuel n, n < fuel →
      digitsGo fuel n ≠ [] ∧ (digitsGo fuel n).all Char.isDigit = true ∧
        ∀ a, (digitsGo fuel n).foldl (fun a c => 10 * a + (c.toNat - 48)) a =
          a * 10 ^ (digitsGo fuel n).length + n := by
  intro fuel
  induction fuel with
  | zero => intro n hn; omega
  | succ fuel ih =>
    intro n hn
    by_cases h10 : n < 10
    · refine ⟨by simp [digitsGo, h10], by simp [digitsGo, h10, digitChar_isDigit], ?_⟩
      intro a
      simp [digitsGo, h10, digitChar_toNat n h10]
      omega
    · have hpos : 0 < n := by omega
      have hdiv : n / 10 < n := Nat.div_lt_self hpos (by omega)
      have hfuel : n / 10 < fuel := by omega
      obtain ⟨hne, hall, hfold⟩ := ih (n / 10) hfuel
      have hmod : n % 10 < 10 := Nat.mod_lt n (by omega)
      refine ⟨by simp [digitsGo, h10], ?_, ?_⟩
      · simp [digitsGo, h10, List.all_append, hall, digitChar_isDigit]
      · intro a
        simp only [digitsGo, if_neg h10, List.foldl_append, List.length_append,
          List.foldl_cons, List.foldl_nil, List.length_cons, List.length_nil]
        rw [hfold a, digitChar_toNat (n % 10) hmod]
        have hdm : 10 * (n / 10) + n % 10 = n := Nat.div_add_mod n 10
        have hpow : 10 ^ ((digitsGo fuel (n / 10)).length + 1) =
            10 ^ (digitsGo fuel (n / 10)).length * 10 := pow_succ 10 _
        rw [hpow]
        ring_nf
        omega

theorem pyInt_pyStr (n : Nat) : pyInt (pyStr n) = some n := by
  obtain ⟨hne, hall, hfold⟩ := digitsGo_spec (n + 1) n (Nat.lt_succ_self n)
  unfold pyInt pyStr natDigits
  rw [if_pos ⟨hne, hall⟩]
  have := hfold 0
  simp only [strToNat, this]
  simp

/-! ### `request_magic_link` (`main.py`, lines 177-204) -/

/-- The `POST /auth/request-magic-link` handler.  `token` stands for the
`uuid.uuid4()` output, `next_user_id` and `next_token_id` for the primary keys
the database would assign.  `send_magic_link_email` is the external Notifier
and leaves no trace in the store.  Returns the response body's message
together with the committed store. -/
def request_magic_link (email_raw : String) (db : Db) (now : Nat)
    (token : String) (next_user_id next_token_id : Nat) : String × Db :=
  let email := email_raw.toLower.trim
  let userDb : User × Db :=
    match db.users.find? (fun u => u.email == email) with
    | some u => (u, db)
    | none =>
      let u : User := { id := next_user_id, email := email, created_at := now }
      (u, { db with users := db.users ++ [u] })
  let user := userDb.1
  let db1 := userDb.2
  let expires_at := now + MAGIC_LINK_EXPIRE_MINUTES * 60
  let magic_token : MagicLinkToken :=
    { id := next_token_id, token := token, user_id := user.id,
      expires_at := expires_at, used := false }
  let db2 := { db1 with magic_link_tokens := db1.magic_link_tokens ++ [magic_token] }
  ("Magic link sent! Check your email.", db2)

/-! ### JWT session credentials (`main.py`, lines 119-126; `python-jose`) -/

/-- The claim set the server encodes (`sub`, `email`, `exp`). -/
structure JwtClaims where
  sub : Option String
  email : Option String
  exp : Nat
deriving Repr, DecidableEq

/-- Model of the HS256 authentication tag of the jose library: a tag value
determined by the signing secret and the claims.  Without the secret a party
cannot produce the tag for chosen claims, which is exactly what the model's
validity check (`sig = jwt_sign secret claims`) captures. -/
def jwt_sign (secret : String) (c : JwtClaims) : String :=
  "HS256." ++ secret ++ "." ++
    (match c.sub with | none => "_" | some s => "s:" ++ s) ++ "." ++
    (match c.email with | none => "_" | some e => "e:" ++ e) ++ "." ++
    pyStr c.exp

/-- A bearer credential as presented by a client: a claim set plus a tag.
A byte string that is not even JWT-shaped decodes to no claims at all, which
the model folds into the failing tag check. -/
structure Jwt where
  claims : JwtClaims
  sig : String
deriving Repr, DecidableEq

/-- `jwt.encode(to_encode, SECRET_KEY, algorithm=ALGORITHM)`. -/
def jwt_encode (secret : String) (c : JwtClaims) : Jwt :=
  { claims := c, sig := jwt_sign secret c }

/-- `jwt.decode(token, SECRET_KEY, algorithms=[ALGORITHM])`: checks the tag
and rejects an expired `exp` claim (jose raises `ExpiredSignatureError`, a
`JWTError`, when `exp < now`); `none` is the raised `JWTError`. -/
def jwt_decode (secret : String) (t : Jwt) (now : Nat) : Option JwtClaims :=
  if t.sig == jwt_sign secret t.claims && Nat.ble now t.claims.exp then
    some t.claims
  else none

/-- `create_access_token` (`main.py`, lines 119-126). -/
def create_access_token (secret : String) (user_id : Nat) (email : String)
    (now : Nat) : Jwt :=
  jwt_encode secret
    { sub := some (pyStr user_id), email := some email,
      exp := now + ACCESS_TOKEN_EXPIRE_DAYS * 86400 }

/-- C9: `RequestLink` returns the same generic acknowledgement for every email
address and every store state — in particular the response for an email with
an existing user record is identical to the response for a fresh one, so the
response reveals nothing about whether the email is registered. -/
theorem request_magic_link_generic_ack :
    (∀ email db now token nuid ntid,
        (request_magic_link email db now token nuid ntid).1 =
          "Magic link sent! Check your email.") ∧
      ∀ email1 db1 now1 token1 nuid1 ntid1 email2 db2 now2 token2 nuid2 ntid2,
        (request_magic_link email1 db1 now1 token1 nuid1 ntid1).1 =
          (request_magic_link email2 db2 now2 token2 nuid2 ntid2).1 := by
  exact ⟨fun _ _ _ _ _ _ => rfl, fun _ _ _ _ _ _ _ _ _ _ _ _ => rfl⟩

/-! ### `verify_magic_link` (`main.py`, lines 207-240) -/

/-- The public user view returned by the auth endpoints. -/
structure UserView where
  id : Nat
  email : String
  created_at : Nat
deriving Repr, DecidableEq

/-- Response body of `GET /auth/verify`. -/
structure TokenResponse where
  access_token : Jwt
  token_type : String
  user : UserView
deriving Repr, DecidableEq

/-- `magic_token.used = True; db.commit()`: flips `used` on the row
`find?` located, i.e. the first row with this token string that is not yet
used; every other row is untouched. -/
def markUsed : List MagicLinkToken → String → List MagicLinkToken
  | [], _ => []
  | t :: ts, tok =>
    if t.token == tok && !t.used then { t with used := true } :: ts
    else t :: markUsed ts tok

/-- The `GET /auth/verify` handler.  Looks the token up among the rows that
are not consumed (`MagicLinkToken.used == False` is part of the filter), then
checks expiry, then commits the consumed flag, then loads the owning user
(`magic_token.user`; a dangling reference would make that `None` and the
attribute access on it an uncaught `AttributeError`) and mints the JWT.
Returns the response together with the store as left behind. -/
def verify_magic_link (tok : String) (db : Db) (now : Nat) (secret : String) :
    Except ApiError TokenResponse × Db :=
  match db.magic_link_tokens.find? (fun t => t.token == tok && !t.used) with
  | none => (.error (.http 400 "Invalid or already used token"), db)
  | some magic_token =>
    if magic_token.expires_at < now then
      (.error (.http 400 "Token has expired"), db)
    else
      let db1 : Db :=
        { db with magic_link_tokens := markUsed db.magic_link_tokens tok }
      match db1.users.find? (fun u => u.id == magic_token.user_id) with
      | none => (.error (.unhandled "AttributeError"), db1)
      | some user =>
        (.ok { access_token := create_access_token secret user.id user.email now,
               token_type := "bearer",
               user := { id := user.id, email := user.email,
                         created_at := user.created_at } }, db1)

/-- Rows with distinct token strings, the `unique=True` constraint of the
`token` column. -/
def UniqueTokens (l : List MagicLinkToken) : Prop :=
  l.Pairwise (fun a b => a.token ≠ b.token)

theorem markUsed_mem_token {l : List MagicLinkToken} {tok : String}
    (h : UniqueTokens l) :
    ∀ t ∈ markUsed l tok, t.token = tok → t.used = true := by
  induction l with
  | nil => intro t ht; simp [markUsed] at ht
  | cons x xs ih =>
    simp only [UniqueTokens, List.pairwise_cons] at h
    intro t ht htok
    by_cases hx : (x.token == tok && !x.used) = true
    · simp only [markUsed, if_pos hx] at ht
      rcases List.mem_cons.1 ht with h1 | h1
      · subst h1; rfl
      · exfalso
        have hxx : x.token = tok := by
          simp only [Bool.and_eq_true, beq_iff_eq] at hx
          exact hx.1
        exact h.1 t h1 (by rw [hxx, htok])
    · simp only [markUsed, if_neg hx] at ht
      rcases List.mem_cons.1 ht with h1 | h1
      · subst h1
        by_contra hu
        apply hx
        simp only [Bool.and_eq_true, beq_iff_eq, Bool.not_eq_true']
        exact ⟨htok, by simpa using hu⟩
      · exact ih h.2 t h1 htok

theorem find?_markUsed_none {l : List MagicLinkToken} {tok : String}
    (h : UniqueTokens l) :
    (markUsed l tok).find? (fun t => t.token == tok && !t.used) = none := by
  rw [List.find?_eq_none]
  intro t ht
  simp only [Bool.and_eq_true, beq_iff_eq, Bool.not_eq_true', not_and]
  intro htok
  simp [markUsed_mem_token h t ht htok]

/-- The first row matching `p` is the member `mt`, provided every row
satisfying `p` shares the token string of `mt` and token strings are unique. -/
theorem find?_of_uniqueTokens {l : List MagicLinkToken} {mt : MagicLinkToken}
    {p : MagicLinkToken → Bool} (h : UniqueTokens l) (hm : mt ∈ l)
    (hp : p mt = true) (htok : ∀ e, p e = true → e.token = mt.token) :
    l.find? p = some mt := by
  induction l with
  | nil => simp at hm
  | cons x xs ih =>
    simp only [UniqueTokens, List.pairwise_cons] at h
    rcases List.mem_cons.1 hm with h1 | h1
    · subst h1; simp [List.find?_cons, hp]
    · have hx : p x = false := by
        by_contra hpx
        have hpx : p x = true := by simpa using hpx
        exact h.1 mt h1 (htok x hpx)
      simp [List.find?_cons, hx, ih h.2 h1]

/-- C1: a redemption that succeeds leaves the token consumed, and every later
redemption of the same token fails with the 400 "Invalid or already used
token" response (the lookup filters on the consumed flag), leaving the store
untouched — so no second credential is ever issued from one token. -/
theorem verify_magic_link_single_use (tok : String) (db : Db) (now : Nat)
    (secret : String) (resp : TokenResponse)
    (huniq : UniqueTokens db.magic_link_tokens)
    (hok : (verify_magic_link tok db now secret).1 = .ok resp) :
    (∀ t ∈ (verify_magic_link tok db now secret).2.magic_link_tokens,
        t.token = tok → t.used = true) ∧
      ∀ now2 secret2,
        verify_magic_link tok (verify_magic_link tok db now secret).2 now2 secret2 =
          (.error (.http 400 "Invalid or already used token"),
            (verify_magic_link tok db now secret).2) := by
  unfold verify_magic_link at hok ⊢
  cases hfind : db.magic_link_tokens.find? (fun t => t.token == tok && !t.used) with
  | none => rw [hfind] at hok; simp at hok
  | some mt =>
    rw [hfind] at hok
    dsimp only at hok ⊢
    by_cases hexp : mt.expires_at < now
    · rw [if_pos hexp] at hok; simp at hok
    · rw [if_neg hexp] at hok ⊢
      cases huser : (List.find? (fun u => u.id == mt.user_id) db.users) with
      | none => rw [huser] at hok; simp at hok
      | some user =>
        rw [huser] at hok
        dsimp only at hok ⊢
        constructor
        · exact fun t ht htok => markUsed_mem_token huniq t ht htok
        · intro now2 secret2
          rw [find?_markUsed_none huniq]

/-- Witness for C1 at a one-user, one-token store. -/
theorem verify_magic_link_single_use_witness :
    let u : User := { id := 1, email := "a@b.com", created_at := 0 }
    let mt : MagicLinkToken :=
      { id := 1, token := "t1", user_id := 1, expires_at := 100, used := false }
    let db : Db := { users := [u], magic_link_tokens := [mt], weights := [] }
    (∀ t ∈ (verify_magic_link "t1" db 5 "k").2.magic_link_tokens,
        t.token = "t1" → t.used = true) ∧
      ∀ now2 secret2,
        verify_magic_link "t1" (verify_magic_link "t1" db 5 "k").2 now2 secret2 =
          (.error (.http 400 "Invalid or already used token"),
            (verify_magic_link "t1" db 5 "k").2) := by
  intro u mt db
  exact verify_magic_link_single_use "t1" db 5 "k"
    { access_token := create_access_token "k" 1 "a@b.com" 5,
      token_type := "bearer",
      user := { id := 1, email := "a@b.com", created_at := 0 } }
    (by simp [UniqueTokens]) (by rfl)

/-- C3: redeeming a token whose expiry lies strictly before the current time
fails with the 400 "Token has expired" response even though the token is not
consumed, and the store is returned unchanged — the consumed flag stays
false, an expired token never transitions to consumed. -/
theorem verify_magic_link_expired (tok : String) (db : Db) (now : Nat)
    (secret : String) (mt : MagicLinkToken)
    (huniq : UniqueTokens db.magic_link_tokens)
    (hmem : mt ∈ db.magic_link_tokens) (htok : mt.token = tok)
    (hunused : mt.used = false) (hexp : mt.expires_at < now) :
    verify_magic_link tok db now secret =
      (.error (.http 400 "Token has expired"), db) := by
  have hp : (fun t => t.token == tok && !t.used) mt = true := by
    simp [htok, hunused]
  have hfind : db.magic_link_tokens.find? (fun t => t.token == tok && !t.used) =
      some mt := by
    apply find?_of_uniqueTokens huniq hmem hp
    intro e he
    simp only [Bool.and_eq_true, beq_iff_eq] at he
    rw [he.1, htok]
  unfold verify_magic_link
  rw [hfind]
  dsimp only
  rw [if_pos hexp]

/-- Witness for C3 at a store holding one expired, unconsumed token. -/
theorem verify_magic_link_expired_witness :
    let mt : MagicLinkToken :=
      { id := 1, token := "t1", user_id := 1, expires_at := 3, used := false }
    let db : Db := { users := [], magic_link_tokens := [mt], weights := [] }
    verify_magic_link "t1" db 10 "k" =
      (.error (.http 400 "Token has expired"), db) := by
  intro mt db
  exact verify_magic_link_expired "t1" db 10 "k" mt
    (by simp [UniqueTokens]) (by simp) rfl rfl (by decide)

/-! ### OCR extraction (`main.py`, lines 266-274) -/

/-- Greedy match of the pattern `(\d+\.?\d*)` anchored at a leading digit: a
maximal digit run, then optionally one dot, then a further digit run.  No
backtracking arises because everything after the first run is optional. -/
def matchNumberAt (cs : List Char) : List Char :=
  let ds := cs.takeWhile Char.isDigit
  match cs.dropWhile Char.isDigit with
  | '.' :: rest => ds ++ '.' :: rest.takeWhile Char.isDigit
  | _ => ds

/-- Model of `re.search(r'(\d+\.?\d*)', text)`: scan left to right for the
first position where a match can start (a digit) and return group 1. -/
def re_search_number : List Char → Option (List Char)
  | [] => none
  | c :: cs =>
    if c.isDigit then some (matchNumberAt (c :: cs)) else re_search_number cs

/-- Model of Python `float(...)` on the matched group, which by construction
has the shape digits, optional dot, digits. -/
def pyFloat (cs : List Char) : ℚ :=
  let intPart := cs.takeWhile Char.isDigit
  let fracPart :=
    match cs.dropWhile Char.isDigit with
    | '.' :: fs => fs.takeWhile Char.isDigit
    | _ => []
  (strToNat intPart : ℚ) + (strToNat fracPart : ℚ) / (10 : ℚ) ^ fracPart.length

/-! ### `add_weight` (`main.py`, lines 254-281) -/

/-- Python truthiness of the optional `weight` form field: `not weight` holds
when the field is absent and also when the supplied float equals zero. -/
def weightFalsy : Option ℚ → Bool
  | none => true
  | some w => w == 0

/-- The `POST /weight` handler.  The uploaded file is represented by the text
pytesseract recognises in it (the Extractor collaborator of the spec), so
`image : Option String` carries that text; `now` models the
`datetime.datetime.utcnow` column default and `next_id` the primary key the
database would assign.  Returns the created entry (the response view carries
its fields) together with the committed store. -/
def add_weight (weight : Option ℚ) (image : Option String) (current_user : User)
    (db : Db) (now : Nat) (next_id : Nat) : Except ApiError WeightEntry × Db :=
  if weightFalsy weight && image.isNone then
    (.error (.http 400 "Either weight or image must be provided"), db)
  else
    match image with
    | some text =>
      match re_search_number text.data with
      | some group1 =>
        let entry : WeightEntry :=
          { id := next_id, weight := pyFloat group1, timestamp := now,
            method := "ocr", user_id := current_user.id }
        (.ok entry, { db with weights := db.weights ++ [entry] })
      | none => (.error (.http 400 "Could not extract weight from image"), db)
    | none =>
      let entry : WeightEntry :=
        { id := next_id, weight := weight.getD 0, timestamp := now,
          method := "manual", user_id := current_user.id }
      (.ok entry, { db with weights := db.weights ++ [entry] })

/-- A fixed user and store for concrete evaluations. -/
def sampleUser : User := { id := 7, email := "a@b.com", created_at := 0 }

def sampleDb : Db := { users := [sampleUser], magic_link_tokens := [], weights := [] }

/-- C8: a submitted numeric weight of zero with no image is rejected with the
400 "Either weight or image must be provided" response — the falsy zero is
treated exactly like an absent weight. -/
theorem add_weight_zero_weight_rejected :
    ∀ u db now nid,
      add_weight (some 0) none u db now nid =
          (.error (.http 400 "Either weight or image must be provided"), db) ∧
        add_weight (some 0) none u db now nid = add_weight none none u db now nid :=
  fun _ _ _ _ => ⟨rfl, rfl⟩

/-- Evaluation of the extracted sample number: the group "182.4" denotes
the rational 182.4. -/
theorem pyFloat_sample : pyFloat ['1', '8', '2', '.', '4'] = 912 / 5 := by
  have h : pyFloat ['1', '8', '2', '.', '4'] =
      (strToNat ['1', '8', '2'] : ℚ) +
        (strToNat ['4'] : ℚ) / (10 : ℚ) ^ (['4'] : List Char).length := rfl
  have h1 : strToNat ['1', '8', '2'] = 182 := rfl
  have h2 : strToNat ['4'] = 4 := rfl
  rw [h, h1, h2]
  norm_num

/-- C5 counterexample: supplying both a numeric value and an image is not
rejected — at weight 70 and an image whose recognised text is "182.4 lbs" the
handler succeeds, storing the OCR value. -/
theorem add_weight_both_inputs_counterexample :
    (add_weight (some 70) (some "182.4 lbs") sampleUser sampleDb 11 1).1 =
      .ok { id := 1, weight := 912 / 5, timestamp := 11, method := "ocr",
            user_id := 7 } := by
  rw [← pyFloat_sample]
  rfl

/-- C5 amended: submitting neither a (truthy) numeric value nor an image is
rejected with the 400 "Either weight or image must be provided" response, but
a request supplying both a numeric value and an image is never rejected with
that response: the image path runs instead. -/
theorem add_weight_input_validation_amended :
    (∀ u db now nid,
        add_weight none none u db now nid =
          (.error (.http 400 "Either weight or image must be provided"), db)) ∧
      ∀ u db now nid (w : ℚ) (text : String),
        (add_weight (some w) (some text) u db now nid).1 ≠
          .error (.http 400 "Either weight or image must be provided") := by
  refine ⟨fun _ _ _ _ => rfl, ?_⟩
  intro u db now nid w text h
  unfold add_weight at h
  simp only [Option.isNone_some, Bool.and_false, Bool.false_eq_true, if_false] at h
  cases hre : re_search_number text.data with
  | some group1 => rw [hre] at h; simp at h
  | none => rw [hre] at h; simp at h

/-- Closed instance of the C5 amended theorem. -/
theorem add_weight_input_validation_amended_witness :
    add_weight none none sampleUser sampleDb 3 1 =
        (.error (.http 400 "Either weight or image must be provided"), sampleDb) ∧
      (add_weight (some 70) (some "182.4 lbs") sampleUser sampleDb 3 1).1 ≠
        .error (.http 400 "Either weight or image must be provided") :=
  ⟨add_weight_input_validation_amended.1 sampleUser sampleDb 3 1,
    add_weight_input_validation_amended.2 sampleUser sampleDb 3 1 70 "182.4 lbs"⟩

/-- C10: when both a numeric value and an image are supplied and the regex
finds a number in the recognised text, the handler succeeds, the stored
weight is the number extracted from the image, the provenance tag is "ocr",
and the result does not depend on the supplied numeric value. -/
theorem add_weight_image_precedence (u : User) (db : Db) (now nid : Nat)
    (text : String) (group1 : List Char)
    (hre : re_search_number text.data = some group1) :
    ∀ w : ℚ,
      add_weight (some w) (some text) u db now nid =
        (.ok { id := nid, weight := pyFloat group1, timestamp := now,
               method := "ocr", user_id := u.id },
          { db with weights := db.weights ++
              [{ id := nid, weight := pyFloat group1, timestamp := now,
                 method := "ocr", user_id := u.id }] }) := by
  intro w
  unfold add_weight
  simp only [Option.isNone_some, Bool.and_false, Bool.false_eq_true, if_false, hre]

/-- Witness for C10: recognised text "182.4 lbs" stores the weight 182.4 with
provenance "ocr", whatever numeric value accompanied it. -/
theorem add_weight_image_precedence_witness :
    re_search_number ("182.4 lbs").data = some ['1', '8', '2', '.', '4'] ∧
      pyFloat ['1', '8', '2', '.', '4'] = 912 / 5 ∧
      add_weight (some 70) (some "182.4 lbs") sampleUser sampleDb 11 1 =
        (.ok { id := 1, weight := pyFloat ['1', '8', '2', '.', '4'],
               timestamp := 11, method := "ocr", user_id := 7 },
          { sampleDb with weights :=
              [{ id := 1, weight := pyFloat ['1', '8', '2', '.', '4'],
                 timestamp := 11, method := "ocr", user_id := 7 }] }) :=
  ⟨rfl, pyFloat_sample,
    add_weight_image_precedence sampleUser sampleDb 11 1 "182.4 lbs"
      ['1', '8', '2', '.', '4'] rfl 70⟩

/-! ### `delete_weight` (`main.py`, lines 306-322) -/

/-- The `DELETE /weight/[entry_id]` handler: looks the row up filtered by id
and owner together, deletes the found row, and answers 404 otherwise. -/
def delete_weight (entry_id : Nat) (current_user : User) (db : Db) :
    Except ApiError (Nat × String) × Db :=
  match db.weights.find? (fun e => e.id == entry_id && e.user_id == current_user.id) with
  | none => (.error (.http 404 "Weight entry not found"), db)
  | some _ =>
    (.ok (entry_id, "Weight entry deleted successfully"),
      { db with weights :=
          db.weights.eraseP (fun e => e.id == entry_id && e.user_id == current_user.id) })

/-- C4: `Delete` removes an entry iff one exists with the requested id owned
by the caller; the two failure causes (no such id at all, or the id belongs
to another user) produce the one identical 404 response with the store
unchanged; and an entry owned by a different user always survives. -/
theorem delete_weight_owner_scoped (entry_id : Nat) (u : User) (db : Db) :
    ((∀ e ∈ db.weights, ¬(e.id = entry_id ∧ e.user_id = u.id)) →
        delete_weight entry_id u db = (.error (.http 404 "Weight entry not found"), db)) ∧
      ((∃ e ∈ db.weights, e.id = entry_id ∧ e.user_id = u.id) →
        (delete_weight entry_id u db).1 =
            .ok (entry_id, "Weight entry deleted successfully") ∧
          ∃ r, r.id = entry_id ∧ r.user_id = u.id ∧
            db.weights.Perm (r :: (delete_weight entry_id u db).2.weights)) ∧
      ∀ e ∈ db.weights, e.user_id ≠ u.id →
        e ∈ (delete_weight entry_id u db).2.weights := by
  refine ⟨?_, ?_, ?_⟩
  · intro h
    have hfind : db.weights.find? (fun e => e.id == entry_id && e.user_id == u.id) = none := by
      rw [List.find?_eq_none]
      intro e he
      have := h e he
      simp only [Bool.and_eq_true, beq_iff_eq, not_and]
      intro h1 h2
      exact this ⟨h1, h2⟩
    unfold delete_weight
    rw [hfind]
  · rintro ⟨e, he, h1, h2⟩
    have hsome : (db.weights.find? (fun e => e.id == entry_id && e.user_id == u.id)).isSome := by
      rw [List.find?_isSome]
      exact ⟨e, he, by simp [h1, h2]⟩
    obtain ⟨f, hf⟩ := Option.isSome_iff_exists.1 hsome
    have hpf := List.find?_some hf
    simp only [Bool.and_eq_true, beq_iff_eq] at hpf
    have hmemf := List.mem_of_find?_eq_some hf
    have hpf2 : (fun e => e.id == entry_id && e.user_id == u.id) f = true := by
      simp [hpf.1, hpf.2]
    obtain ⟨a, l1, l2, hnl1, hpa, hsplit, herase⟩ :=
      @List.exists_of_eraseP _ (fun e => e.id == entry_id && e.user_id == u.id)
        _ _ hmemf hpf2
    simp only [Bool.and_eq_true, beq_iff_eq] at hpa
    unfold delete_weight
    rw [hf]
    refine ⟨rfl, a, hpa.1, hpa.2, ?_⟩
    show db.weights.Perm
      (a :: db.weights.eraseP (fun e => e.id == entry_id && e.user_id == u.id))
    rw [herase, hsplit]
    exact List.perm_middle
  · intro e he hne
    unfold delete_weight
    cases hfind : db.weights.find? (fun x => x.id == entry_id && x.user_id == u.id) with
    | none => exact he
    | some f =>
      show e ∈ db.weights.eraseP (fun x => x.id == entry_id && x.user_id == u.id)
      have hmemf := List.mem_of_find?_eq_some hfind
      obtain ⟨a, l1, l2, hnl1, hpa, hsplit, herase⟩ :=
        List.exists_of_eraseP hmemf (List.find?_some hfind)
      rw [herase]
      simp only [Bool.and_eq_true, beq_iff_eq] at hpa
      rw [hsplit] at he
      rcases List.mem_append.1 he with h1 | h1
      · exact List.mem_append.2 (Or.inl h1)
      · rcases List.mem_cons.1 h1 with h1 | h1
        · exfalso; apply hne; rw [h1]; exact hpa.2
        · exact List.mem_append.2 (Or.inr h1)

/-- Witness for C4: a store with one entry each for users 7 and 8.  Deleting
user 8's entry as user 7 answers the same 404 as deleting an absent id, user
8's entry survives, and deleting user 7's own entry succeeds. -/
theorem delete_weight_owner_scoped_witness :
    let mine : WeightEntry :=
      { id := 1, weight := 80, timestamp := 5, method := "manual", user_id := 7 }
    let theirs : WeightEntry :=
      { id := 2, weight := 60, timestamp := 6, method := "manual", user_id := 8 }
    let db : Db := { users := [], magic_link_tokens := [], weights := [mine, theirs] }
    delete_weight 2 sampleUser db =
        (.error (.http 404 "Weight entry not found"), db) ∧
      delete_weight 3 sampleUser db =
        (.error (.http 404 "Weight entry not found"), db) ∧
      (delete_weight 1 sampleUser db).1 =
        .ok (1, "Weight entry deleted successfully") ∧
      theirs ∈ (delete_weight 1 sampleUser db).2.weights := by
  intro mine theirs db
  refine ⟨?_, ?_, ?_, ?_⟩
  · exact (delete_weight_owner_scoped 2 sampleUser db).1 (by decide)
  · exact (delete_weight_owner_scoped 3 sampleUser db).1 (by decide)
  · exact ((delete_weight_owner_scoped 1 sampleUser db).2.1 ⟨mine, by decide, by decide⟩).1
  · exact (delete_weight_owner_scoped 1 sampleUser db).2.2 theirs (by decide) (by decide)

/-! ### `get_weights` (`main.py`, lines 284-303) -/

/-- Model of the call `s.replace('Z', '+00:00')`: every occurrence of the
single character `Z` expands to the five characters of `+00:00`. -/
def replaceZ : List Char → List Char
  | [] => []
  | c :: rest =>
    if c == 'Z' then '+' :: '0' :: '0' :: ':' :: '0' :: '0' :: replaceZ rest
    else c :: replaceZ rest

/-- Model of Python `datetime.datetime.fromisoformat` (standard library,
external to the repository), restricted to the shapes the claims exercise:
`YYYY-MM-DD`, optionally followed by `THH:MM:SS`.  The result is an abstract
instant whose order agrees with the lexicographic order of the digit fields.
Any other shape raises `ValueError`, modelled as `none`. -/
def fromisoformat (cs : List Char) : Option Nat :=
  match cs with
  | [y1, y2, y3, y4, '-', mo1, mo2, '-', d1, d2] =>
    if [y1, y2, y3, y4, mo1, mo2, d1, d2].all Char.isDigit then
      some (strToNat [y1, y2, y3, y4, mo1, mo2, d1, d2] * 100000)
    else none
  | [y1, y2, y3, y4, '-', mo1, mo2, '-', d1, d2, 'T',
      h1, h2, ':', mi1, mi2, ':', s1, s2] =>
    if [y1, y2, y3, y4, mo1, mo2, d1, d2, h1, h2, mi1, mi2, s1, s2].all Char.isDigit then
      some (strToNat [y1, y2, y3, y4, mo1, mo2, d1, d2] * 100000 +
        strToNat [h1, h2, mi1, mi2, s1, s2])
    else none
  | _ => none

/-- Python truthiness of an `Optional[str]` query parameter: `if start:` skips
both `None` and the empty string. -/
def truthyStr : Option String → Bool
  | none => false
  | some s => !(s == "")

/-- Ascending timestamp order, the `order_by(WeightEntry.timestamp)` of the
query. -/
def tsLE (a b : WeightEntry) : Prop := a.timestamp ≤ b.timestamp

instance : DecidableRel tsLE := fun a b => Nat.decLe a.timestamp b.timestamp

instance : IsTotal WeightEntry tsLE := ⟨fun a b => Nat.le_total a.timestamp b.timestamp⟩

instance : IsTrans WeightEntry tsLE := ⟨fun _ _ _ hab hbc => Nat.le_trans hab hbc⟩

/-- The `GET /weights` handler.  The query is built by filtering on the
owner, ordering by timestamp, and conjoining one inclusive filter per truthy
bound; SQL applies the ordering to the fully filtered row set, so the model
sorts the filtered list.  A bound that `fromisoformat` cannot parse raises
`ValueError`, which nothing catches. -/
def get_weights (start end_q : Option String) (current_user : User) (db : Db) :
    Except ApiError (List WeightEntry) :=
  let q0 := db.weights.filter (fun e => e.user_id == current_user.id)
  let step1 : Except ApiError (List WeightEntry) :=
    if truthyStr start then
      match fromisoformat (replaceZ (start.getD "").data) with
      | none => .error (.unhandled "ValueError")
      | some start_dt => .ok (q0.filter (fun e => Nat.ble start_dt e.timestamp))
    else .ok q0
  match step1 with
  | .error err => .error err
  | .ok q1 =>
    let step2 : Except ApiError (List WeightEntry) :=
      if truthyStr end_q then
        match fromisoformat (replaceZ (end_q.getD "").data) with
        | none => .error (.unhandled "ValueError")
        | some end_dt => .ok (q1.filter (fun e => Nat.ble e.timestamp end_dt))
      else .ok q1
    match step2 with
    | .error err => .error err
    | .ok q2 => .ok (List.insertionSort tsLE q2)

/-- A supplied bound together with the instant it parses to: either the bound
is absent, or it is a nonempty string that `fromisoformat` (after the `Z`
normalisation) reads as the given instant. -/
def BoundSpec (o : Option String) : Option Nat → Prop
  | none => o = none
  | some t => ∃ s, o = some s ∧ s ≠ "" ∧ fromisoformat (replaceZ s.data) = some t

/-- C6: with parseable (or absent) bounds, `List` succeeds and returns exactly
the caller's entries whose timestamp lies within the supplied inclusive
bounds, sorted ascending by timestamp; no entry of another user appears. -/
theorem get_weights_range_exact (u : User) (db : Db) (start end_q : Option String)
    (t1 t2 : Option Nat) (hstart : BoundSpec start t1) (hend : BoundSpec end_q t2) :
    ∃ l, get_weights start end_q u db = .ok l ∧
      (∀ e, e ∈ l ↔ e ∈ db.weights ∧ e.user_id = u.id ∧
          (∀ a, t1 = some a → a ≤ e.timestamp) ∧
          (∀ b, t2 = some b → e.timestamp ≤ b)) ∧
      l.Sorted tsLE ∧
      ∀ e ∈ l, e.user_id = u.id := by
  have key : ∃ q2, get_weights start end_q u db = .ok (List.insertionSort tsLE q2) ∧
      ∀ e, e ∈ q2 ↔ e ∈ db.weights ∧ e.user_id = u.id ∧
        (∀ a, t1 = some a → a ≤ e.timestamp) ∧
        (∀ b, t2 = some b → e.timestamp ≤ b) := by
    rcases t1 with _ | a
    · have hs : start = none := by simpa [BoundSpec] using hstart
      subst hs
      rcases t2 with _ | b
      · have he : end_q = none := by simpa [BoundSpec] using hend
        subst he
        refine ⟨db.weights.filter (fun e => e.user_id == u.id), ?_, ?_⟩
        · simp [get_weights, truthyStr]
        · intro e
          simp [List.mem_filter]
      · obtain ⟨s, rfl, hne, hparse⟩ := hend
        have hsb : (s == "") = false := beq_eq_false_iff_ne.mpr hne
        refine ⟨(db.weights.filter (fun e => e.user_id == u.id)).filter
            (fun e => Nat.ble e.timestamp b), ?_, ?_⟩
        · simp [get_weights, truthyStr, hsb, hparse]
        · intro e
          simp [List.mem_filter, Nat.ble_eq, and_assoc]
          tauto
    · obtain ⟨s, rfl, hne, hparse⟩ := hstart
      have hsb : (s == "") = false := beq_eq_false_iff_ne.mpr hne
      rcases t2 with _ | b
      · have he : end_q = none := by simpa [BoundSpec] using hend
        subst he
        refine ⟨(db.weights.filter (fun e => e.user_id == u.id)).filter
            (fun e => Nat.ble a e.timestamp), ?_, ?_⟩
        · simp [get_weights, truthyStr, hsb, hparse]
        · intro e
          simp [List.mem_filter, Nat.ble_eq, and_assoc]
          tauto
      · obtain ⟨s2, rfl, hne2, hparse2⟩ := hend
        have hsb2 : (s2 == "") = false := beq_eq_false_iff_ne.mpr hne2
        refine ⟨((db.weights.filter (fun e => e.user_id == u.id)).filter
            (fun e => Nat.ble a e.timestamp)).filter
            (fun e => Nat.ble e.timestamp b), ?_, ?_⟩
        · simp [get_weights, truthyStr, hsb, hparse, hsb2, hparse2]
        · intro e
          simp [List.mem_filter, Nat.ble_eq, and_assoc]
          tauto
  obtain ⟨q2, heq, hmem⟩ := key
  refine ⟨List.insertionSort tsLE q2, heq, ?_, List.sorted_insertionSort tsLE q2, ?_⟩
  · intro e
    rw [List.mem_insertionSort]
    exact hmem e
  · intro e he
    rw [List.mem_insertionSort] at he
    exact ((hmem e).1 he).2.1

/-- A store holding dated entries of two users, for concrete evaluations. -/
def rangeDb : Db :=
  { users := [sampleUser], magic_link_tokens := [],
    weights :=
      [{ id := 1, weight := 80, timestamp := 2024010100000, method := "manual",
         user_id := 7 },
       { id := 2, weight := 81, timestamp := 2024010300000, method := "manual",
         user_id := 7 },
       { id := 3, weight := 60, timestamp := 2024010300000, method := "manual",
         user_id := 8 }] }

/-- Witness for C6: the bound "2024-01-02" parses to the model instant
2024010200000 and the theorem applies to `rangeDb`. -/
theorem get_weights_range_exact_witness :
    BoundSpec (some "2024-01-02") (some 2024010200000) ∧
      ∃ l, get_weights (some "2024-01-02") none sampleUser rangeDb = .ok l ∧
        (∀ e, e ∈ l ↔ e ∈ rangeDb.weights ∧ e.user_id = sampleUser.id ∧
            (∀ a, (some 2024010200000 : Option Nat) = some a → a ≤ e.timestamp) ∧
            (∀ b, (none : Option Nat) = some b → e.timestamp ≤ b)) ∧
        l.Sorted tsLE ∧
        ∀ e ∈ l, e.user_id = sampleUser.id :=
  ⟨⟨"2024-01-02", rfl, by decide, rfl⟩,
    get_weights_range_exact sampleUser rangeDb (some "2024-01-02") none
      (some 2024010200000) none ⟨"2024-01-02", rfl, by decide, rfl⟩ rfl⟩

/-- Does a result carry the 400-class `HTTPException` shape (the transport of
the spec's `InvalidInput` class)? -/
def isHttp400 {α : Type} : Except ApiError α → Bool
  | .error (.http 400 _) => true
  | _ => false

/-- C7 counterexample: at the malformed filter "garbage" the handler does not
fail with a 400-class `InvalidInput`; it raises an uncaught `ValueError`. -/
theorem get_weights_malformed_counterexample :
    isHttp400 (get_weights (some "garbage") none sampleUser sampleDb) = false ∧
      get_weights (some "garbage") none sampleUser sampleDb =
        .error (.unhandled "ValueError") :=
  ⟨rfl, rfl⟩

/-- C7 amended: a supplied nonempty timestamp filter that `fromisoformat`
cannot parse makes `List` raise an uncaught `ValueError` (surfaced by the
framework as a 500-class internal error), in either bound position — not a
400-class `InvalidInput`. -/
theorem get_weights_malformed_unhandled (u : User) (db : Db) (s : String)
    (hne : s ≠ "") (hbad : fromisoformat (replaceZ s.data) = none) :
    get_weights (some s) none u db = .error (.unhandled "ValueError") ∧
      get_weights none (some s) u db = .error (.unhandled "ValueError") := by
  have hsb : (s == "") = false := beq_eq_false_iff_ne.mpr hne
  constructor <;> simp [get_weights, truthyStr, hsb, hbad]

/-- Closed instance of the C7 amended theorem at the filter "not-a-date". -/
theorem get_weights_malformed_unhandled_witness :
    get_weights (some "not-a-date") none sampleUser sampleDb =
        .error (.unhandled "ValueError") ∧
      get_weights none (some "not-a-date") sampleUser sampleDb =
        .error (.unhandled "ValueError") :=
  get_weights_malformed_unhandled sampleUser sampleDb "not-a-date"
    (by decide) rfl

/-! ### `verify_token` and `get_current_user` (`main.py`, lines 129-146) -/

/-- What `verify_token` hands to the endpoint. -/
structure TokenData where
  user_id : Nat
  email : Option String
deriving Repr, DecidableEq

/-- `verify_token`: decodes the bearer credential and extracts the identity.
A `JWTError` (bad tag, expired `exp`) answers 401 "Invalid or expired token";
a decodable credential with no `sub` claim answers 401 "Invalid token".  The
`int(user_id)` conversion sits inside the `try`, but a `ValueError` from it
is not a `JWTError` and would propagate uncaught — reachable only on a
well-signed token with a non-numeric `sub`, which the server never mints. -/
def verify_token (secret : String) (now : Nat) (credentials : Jwt) :
    Except ApiError TokenData :=
  match jwt_decode secret credentials now with
  | none => .error (.http 401 "Invalid or expired token")
  | some payload =>
    match payload.sub with
    | none => .error (.http 401 "Invalid token")
    | some user_id =>
      match pyInt user_id with
      | none => .error (.unhandled "ValueError")
      | some uid => .ok { user_id := uid, email := payload.email }

/-- `get_current_user`: resolves the decoded identity against the user table
and answers 401 "User not found" when the referenced user no longer exists. -/
def get_current_user (secret : String) (now : Nat) (credentials : Jwt) (db : Db) :
    Except ApiError User :=
  match verify_token secret now credentials with
  | .error e => .error e
  | .ok token_data =>
    match db.users.find? (fun u => u.id == token_data.user_id) with
    | none => .error (.http 401 "User not found")
    | some user => .ok user

/-- Modelled from the spec: the bearer security dependency (FastAPI's
`HTTPBearer`, outside this repository) rejects a request that carries no
credential as unauthenticated before the handler body runs; a present
credential flows into `verify_token`/`get_current_user`. -/
def authenticate (secret : String) (now : Nat) (credential : Option Jwt)
    (db : Db) : Except ApiError User :=
  match credential with
  | none => .error (.http 401 "Not authenticated")
  | some cred => get_current_user secret now cred db

/-- C2: authentication resolves exactly the identity embedded at minting time
— a credential minted for `uid` either fails or resolves a stored user whose
id is `uid`, never another user's — and every failing shape (missing
credential, tampered tag, expired, identity claim absent, or referenced user
gone from the store) answers a 401 error. -/
theorem authenticate_resolves_minted_identity (secret : String) (db : Db)
    (now : Nat) (cred : Jwt) :
    (authenticate secret now none db = .error (.http 401 "Not authenticated")) ∧
      (∀ uid email tmint u, cred = create_access_token secret uid email tmint →
        authenticate secret now (some cred) db = .ok u →
          u.id = uid ∧ u ∈ db.users) ∧
      (cred.sig ≠ jwt_sign secret cred.claims →
        authenticate secret now (some cred) db =
          .error (.http 401 "Invalid or expired token")) ∧
      (cred.claims.exp < now →
        authenticate secret now (some cred) db =
          .error (.http 401 "Invalid or expired token")) ∧
      (cred.sig = jwt_sign secret cred.claims → now ≤ cred.claims.exp →
        cred.claims.sub = none →
        authenticate secret now (some cred) db =
          .error (.http 401 "Invalid token")) ∧
      ∀ uid email tmint, cred = create_access_token secret uid email tmint →
        now ≤ cred.claims.exp →
        db.users.find? (fun u => u.id == uid) = none →
        authenticate secret now (some cred) db =
          .error (.http 401 "User not found") := by
  refine ⟨rfl, ?_, ?_, ?_, ?_, ?_⟩
  · rintro uid email tmint u rfl hok
    by_cases hble : Nat.ble now (tmint + ACCESS_TOKEN_EXPIRE_DAYS * 86400) = true
    · have hdec : jwt_decode secret (create_access_token secret uid email tmint) now =
          some { sub := some (pyStr uid), email := some email,
                 exp := tmint + ACCESS_TOKEN_EXPIRE_DAYS * 86400 } := by
        unfold jwt_decode create_access_token jwt_encode
        simp [hble]
      unfold authenticate get_current_user verify_token at hok
      dsimp only at hok
      rw [hdec] at hok
      simp only [pyInt_pyStr] at hok
      cases hfind : db.users.find? (fun v => v.id == uid) with
      | none => rw [hfind] at hok; simp at hok
      | some w =>
        rw [hfind] at hok
        simp only [Except.ok.injEq] at hok
        subst hok
        have hw := List.find?_some hfind
        simp only [beq_iff_eq] at hw
        exact ⟨hw, List.mem_of_find?_eq_some hfind⟩
    · have hdec : jwt_decode secret (create_access_token secret uid email tmint) now =
          none := by
        unfold jwt_decode create_access_token jwt_encode
        simp [hble]
      unfold authenticate get_current_user verify_token at hok
      dsimp only at hok
      rw [hdec] at hok
      simp at hok
  · intro hsig
    have hdec : jwt_decode secret cred now = none := by
      unfold jwt_decode
      rw [beq_eq_false_iff_ne.mpr hsig]
      simp
    unfold authenticate get_current_user verify_token
    dsimp only
    rw [hdec]
  · intro hexp
    have hble : Nat.ble now cred.claims.exp = false := by
      rw [← Bool.not_eq_true, Nat.ble_eq]
      omega
    have hdec : jwt_decode secret cred now = none := by
      unfold jwt_decode
      rw [hble]
      simp
    unfold authenticate get_current_user verify_token
    dsimp only
    rw [hdec]
  · intro hsig hle hsub
    have hdec : jwt_decode secret cred now = some cred.claims := by
      unfold jwt_decode
      rw [hsig]
      simp [Nat.ble_eq, hle]
    unfold authenticate get_current_user verify_token
    dsimp only
    rw [hdec]
    dsimp only
    rw [hsub]
  · rintro uid email tmint rfl hle hfind
    have hble : Nat.ble now (tmint + ACCESS_TOKEN_EXPIRE_DAYS * 86400) = true := by
      rw [Nat.ble_eq]
      exact hle
    have hdec : jwt_decode secret (create_access_token secret uid email tmint) now =
        some { sub := some (pyStr uid), email := some email,
               exp := tmint + ACCESS_TOKEN_EXPIRE_DAYS * 86400 } := by
      unfold jwt_decode create_access_token jwt_encode
      simp [hble]
    unfold authenticate get_current_user verify_token
    dsimp only
    rw [hdec]
    simp only [pyInt_pyStr]
    rw [hfind]

/-- Witness for C2: the credential minted for user 7 resolves user 7; a
forged tag, an expired credential, a credential with no identity claim, a
credential for an unknown user, and a missing credential all answer 401. -/
theorem authenticate_resolves_minted_identity_witness :
    (sampleUser.id = 7 ∧ sampleUser ∈ sampleDb.users) ∧
      authenticate "k" 0 none sampleDb = .error (.http 401 "Not authenticated") ∧
      authenticate "k" 0
          (some { claims := (create_access_token "k" 7 "a@b.com" 0).claims,
                  sig := "forged" }) sampleDb =
        .error (.http 401 "Invalid or expired token") ∧
      authenticate "k" 999999999 (some (create_access_token "k" 7 "a@b.com" 0))
          sampleDb = .error (.http 401 "Invalid or expired token") ∧
      authenticate "k" 0
          (some (jwt_encode "k" { sub := none, email := none, exp := 50 }))
          sampleDb = .error (.http 401 "Invalid token") ∧
      authenticate "k" 0 (some (create_access_token "k" 99 "x@y.z" 0)) sampleDb =
        .error (.http 401 "User not found") := by
  refine ⟨?_, ?_, ?_, ?_, ?_, ?_⟩
  · exact (authenticate_resolves_minted_identity "k" sampleDb 0
      (create_access_token "k" 7 "a@b.com" 0)).2.1 7 "a@b.com" 0 sampleUser rfl rfl
  · exact (authenticate_resolves_minted_identity "k" sampleDb 0
      (create_access_token "k" 7 "a@b.com" 0)).1
  · exact (authenticate_resolves_minted_identity "k" sampleDb 0
      { claims := (create_access_token "k" 7 "a@b.com" 0).claims,
        sig := "forged" }).2.2.1 (by decide)
  · exact (authenticate_resolves_minted_identity "k" sampleDb 999999999
      (create_access_token "k" 7 "a@b.com" 0)).2.2.2.1 (by decide)
  · exact (authenticate_resolves_minted_identity "k" sampleDb 0
      (jwt_encode "k" { sub := none, email := none, exp := 50 })).2.2.2.2.1
      rfl (by decide) rfl
  · exact (authenticate_resolves_minted_identity "k" sampleDb 0
      (create_access_token "k" 99 "x@y.z" 0)).2.2.2.2.2 99 "x@y.z" 0 rfl
      (by decide) rfl

end WeightTracker
